import Mathlib

/-!
Shallow embedding of `scripts/process_results.py` (scancode-action).

The script post-processes ScanCode.io scan output: it loads a JSON results
file, optionally loads a YAML policy, checks files/vulnerabilities against
the policy, optionally patches SPDX / CycloneDX SBOM files with
vulnerability annotations, writes a summary and sets the process exit code.

Python dictionaries with optional keys are embedded as structures with
`Option` fields (`none` = key absent); `dict.get(k, d)` becomes
`Option.getD`.  Python string methods that the Lean kernel cannot reduce
(`str.lower`, `str.startswith`, `str.endswith`, `sorted`) are embedded by
character-list functions with identical behaviour on the ASCII data the
script handles.  File I/O is embedded by explicit parameters: an abstract
file-system map for `load_policy`, a directory listing for `main` and
`enhance_sbom`, and in-memory documents for the SBOM enhancers, whose
"write back on success, leave the file alone on a caught exception"
behaviour is the `Except`-valued part of the model.
-/

namespace ScancodeAction

/-- Python `str.lower()` restricted to what `Char.toLower` covers (ASCII,
which is all the script compares). -/
def pyLower (s : String) : String := String.mk (s.data.map Char.toLower)

/-- Python `str.startswith(pre)`. -/
def pyStartsWith (s pre : String) : Bool := pre.data.isPrefixOf s.data

/-- Python `str.endswith(suf)`. -/
def pyEndsWith (s suf : String) : Bool := suf.data.isSuffixOf s.data

/-- Code-point comparison of characters, as Python string comparison uses. -/
def charLt (a b : Char) : Bool := a.toNat < b.toNat

/-- Lexicographic `<=` on character lists (Python string order). -/
def listStrLe : List Char → List Char → Bool
  | [], _ => true
  | _ :: _, [] => false
  | a :: as, b :: bs =>
    if charLt a b then true else if charLt b a then false else listStrLe as bs

/-- Python `a <= b` on strings. -/
def pyStrLe (a b : String) : Bool := listStrLe a.data b.data

/-- Insert into an ascending list, keeping it ascending. -/
def insertAsc (a : String) : List String → List String
  | [] => [a]
  | b :: bs => if pyStrLe a b then a :: b :: bs else b :: insertAsc a bs

/-- Python `sorted` on a list of strings (insertion sort; same ascending
result). -/
def pySorted : List String → List String
  | [] => []
  | a :: as => insertAsc a (pySorted as)

/-- A vulnerability record from `extra_data.vulnerabilities`.
`package_purl` embeds the nested `package.purl` lookup
`vuln.get('package', \x7b\x7d).get('purl', '')`. -/
structure Vuln where
  vulnerability_id : Option String := none
  severity : Option String := none
  package_purl : Option String := none
  is_patchable : Option Bool := none
deriving DecidableEq

/-- One entry of a file's `license_detections[*].matches`. -/
structure LicMatch where
  score : Option Int := none
deriving DecidableEq

/-- One entry of a file's `license_detections`.  `matchList` embeds the
source's `matches` key (`matches` is a Lean keyword). -/
structure LicenseDetection where
  matchList : Option (List LicMatch) := none
deriving DecidableEq

/-- A file record from the scan results' `files` list. -/
structure FileRecord where
  path : Option String := none
  detected_license_expression : Option String := none
  license_detections : Option (List LicenseDetection) := none
deriving DecidableEq

/-- The bucket produced by `extract_resources`.  Package and dependency
entries are opaque to every checked function (only their count is read). -/
structure Resources where
  packages : List Unit := []
  dependencies : List Unit := []
  files : List FileRecord := []
deriving DecidableEq

/-- The `license` section of a policy. -/
structure LicensePolicy where
  allowed : Option (List String) := none
  prohibited : Option (List String) := none
  minimum_clarity_score : Option Int := none
deriving DecidableEq

/-- The `vulnerabilities` section of a policy. -/
structure VulnPolicy where
  maximum_severity : Option String := none
  fail_on_unpatchable : Option Bool := none
deriving DecidableEq

/-- A parsed policy document; `none` fields are absent keys. -/
structure Policy where
  license : Option LicensePolicy := none
  vulnerabilities : Option VulnPolicy := none
deriving DecidableEq

/-- A violation record as appended by the two check functions; `none`
fields are keys the producing branch does not set. -/
structure Violation where
  type : String
  license : Option String := none
  score : Option Int := none
  file_path : Option String := none
  vulnerability_id : Option String := none
  severity : Option String := none
  package : Option String := none
  message : String := ""
deriving DecidableEq

/-- What reading the policy path can yield: no file, a file `yaml.safe_load`
raises on, or a parsed document (`yaml.safe_load` of an empty file is
`None`, hence the nested `Option`). -/
inductive FileState where
  | absent : FileState
  | unparseable : FileState
  | parsed : Option Policy → FileState
deriving DecidableEq

/-- `load_policy`: `none` path models the driver passing no `--policy`
value, `""` is a falsy path string; a missing or unparseable file yields
`None`. -/
def load_policy (fs : String → FileState) (file_path : Option String) : Option Policy :=
  match file_path with
  | none => none
  | some p =>
    if p = "" then none
    else
      match fs p with
      | FileState.absent => none
      | FileState.unparseable => none
      | FileState.parsed q => q

/-- The violations `check_license_policy` appends while handling one file
record (loop body of the `for resource in resources['files']` loop). -/
def fileLicenseViolations (lp : LicensePolicy) (resource : FileRecord) : List Violation :=
  match resource.detected_license_expression with
  | none => []
  | some license_key =>
    if license_key = "" then []
    else
      let path := resource.path.getD ""
      let allowed_licenses := lp.allowed.getD []
      let prohibited_licenses := lp.prohibited.getD []
      let min_clarity_score := lp.minimum_clarity_score.getD 0
      (if license_key ∈ prohibited_licenses then
        [{ type := "prohibited_license", license := some license_key,
           file_path := some path,
           message := "Prohibited license '" ++ license_key ++ "' found in " ++ path }]
       else []) ++
      (if allowed_licenses ≠ [] ∧ license_key ∉ allowed_licenses then
        [{ type := "disallowed_license", license := some license_key,
           file_path := some path,
           message := "License '" ++ license_key ++ "' not in allowed list found in " ++ path }]
       else []) ++
      ((resource.license_detections.getD []).flatMap (fun detection =>
        (detection.matchList.getD []).flatMap (fun m =>
          let score := m.score.getD 0
          if score < min_clarity_score then
            [{ type := "low_clarity_score", license := some license_key,
               score := some score, file_path := some path,
               message := "License '" ++ license_key ++ "' has clarity score " ++ toString score ++ ", which is below minimum " ++ toString min_clarity_score }]
          else [])))

/-- `check_license_policy(resources, policy)`. -/
def check_license_policy (resources : Resources) (policy : Option Policy) :
    Bool × List Violation :=
  match policy with
  | none => (true, [])
  | some p =>
    match p.license with
    | none => (true, [])
    | some license_policy =>
      let violations := resources.files.flatMap (fileLicenseViolations license_policy)
      (violations.length == 0, violations)

/-- The `severity_levels` dictionary; `none` is an absent key. -/
def severity_levels (s : String) : Option Nat :=
  if s = "none" then some 0
  else if s = "low" then some 1
  else if s = "medium" then some 2
  else if s = "high" then some 3
  else if s = "critical" then some 4
  else none

/-- The `high_severity_vulnerability` record built for `vuln` when the
configured (already lowercased) maximum is `max_severity`. -/
def highSevViolation (max_severity : String) (vuln : Vuln) : Violation :=
  let severity := pyLower (vuln.severity.getD "")
  { type := "high_severity_vulnerability",
    vulnerability_id := some (vuln.vulnerability_id.getD ""),
    severity := some severity,
    package := some (vuln.package_purl.getD ""),
    message := "Vulnerability " ++ vuln.vulnerability_id.getD "" ++ " has severity '" ++ severity ++ "' which exceeds maximum allowed '" ++ max_severity ++ "'" }

/-- The `unpatchable_vulnerability` record built for `vuln`. -/
def unpatchableViolation (vuln : Vuln) : Violation :=
  let severity := pyLower (vuln.severity.getD "")
  { type := "unpatchable_vulnerability",
    vulnerability_id := some (vuln.vulnerability_id.getD ""),
    severity := some severity,
    package := some (vuln.package_purl.getD ""),
    message := "Unpatchable vulnerability " ++ vuln.vulnerability_id.getD "" ++ " found in " ++ vuln.package_purl.getD "" }

/-- Loop body of `check_vulnerability_policy`: the violations appended for
one vulnerability. -/
def vulnViolations (max_severity : String) (max_severity_level : Nat)
    (fail_on_unpatchable : Bool) (vuln : Vuln) : List Violation :=
  let severity := pyLower (vuln.severity.getD "")
  let severity_level := (severity_levels severity).getD 0
  (if severity_level > max_severity_level then [highSevViolation max_severity vuln] else []) ++
  (if fail_on_unpatchable ∧ vuln.is_patchable.getD true = false then
    [unpatchableViolation vuln]
   else [])

/-- `check_vulnerability_policy(vulnerabilities, policy)`. -/
def check_vulnerability_policy (vulnerabilities : List Vuln) (policy : Option Policy) :
    Bool × List Violation :=
  match policy with
  | none => (true, [])
  | some p =>
    match p.vulnerabilities with
    | none => (true, [])
    | some vuln_policy =>
      let max_severity := pyLower (vuln_policy.maximum_severity.getD "critical")
      let fail_on_unpatchable := vuln_policy.fail_on_unpatchable.getD false
      let max_severity_level := (severity_levels max_severity).getD 4
      let violations :=
        vulnerabilities.flatMap (vulnViolations max_severity max_severity_level fail_on_unpatchable)
      (violations.length == 0, violations)

/-- Severity level of a vulnerability's severity string as the spec's table
reads: `none=0, low=1, medium=2, high=3, critical=4`, case-insensitive,
with an unrecognized or missing severity mapping to `0`. -/
def severityLevel (s : String) : Nat := (severity_levels (pyLower s)).getD 0

/-- Severity level of the configured policy ceiling: same table, but an
unrecognized configured maximum maps to `4` (critical). -/
def ceilingLevel (s : String) : Nat := (severity_levels (pyLower s)).getD 4

/-- The `extra_data` sub-document of the scan results; `vulnerabilities`
is `some` exactly when the key is present. -/
structure ExtraData where
  vulnerabilities : Option (List Vuln) := none
deriving DecidableEq

/-- The parsed scan-results JSON document. -/
structure ScanResults where
  packages : Option (List Unit) := none
  dependencies : Option (List Unit) := none
  files : Option (List FileRecord) := none
  extra_data : Option ExtraData := none
deriving DecidableEq

/-- `extract_resources(scan_results)`. -/
def extract_resources (scan_results : ScanResults) : Resources :=
  { packages := scan_results.packages.getD [],
    dependencies := scan_results.dependencies.getD [],
    files := scan_results.files.getD [] }

/-- `extract_vulnerabilities(scan_results)`: reads
`extra_data.vulnerabilities` when both keys are present, else `[]`. -/
def extract_vulnerabilities (scan_results : ScanResults) : List Vuln :=
  match scan_results.extra_data with
  | none => []
  | some ed =>
    match ed.vulnerabilities with
    | none => []
    | some vs => vs

/-- The summary record written by `generate_summary` (nested dictionaries
flattened into fields; `by_severity` is an insertion-ordered association
list like a Python dict). -/
structure Summary where
  resources_packages : Nat
  resources_dependencies : Nat
  resources_files : Nat
  vulnerabilities_total : Nat
  vulnerabilities_by_severity : List (String × Nat)
  policy_violations_license : List Violation
  policy_violations_vulnerabilities : List Violation
deriving DecidableEq

/-- One step of the severity tally: create the key with 0 if absent, then
add 1 (Python dict semantics, insertion-ordered). -/
def bumpSeverity (acc : List (String × Nat)) (k : String) : List (String × Nat) :=
  if acc.any (fun p => p.1 == k) then
    acc.map (fun p => if p.1 == k then (p.1, p.2 + 1) else p)
  else acc ++ [(k, 0 + 1)]

/-- `generate_summary(resources, vulnerabilities, license_violations,
vuln_violations)`. -/
def generate_summary (resources : Resources) (vulnerabilities : List Vuln)
    (license_violations vuln_violations : List Violation) : Summary :=
  { resources_packages := resources.packages.length,
    resources_dependencies := resources.dependencies.length,
    resources_files := resources.files.length,
    vulnerabilities_total := vulnerabilities.length,
    vulnerabilities_by_severity :=
      vulnerabilities.foldl
        (fun acc vuln => bumpSeverity acc (pyLower (vuln.severity.getD "unknown"))) [],
    policy_violations_license := license_violations,
    policy_violations_vulnerabilities := vuln_violations }

/-- One element of a package's `externalRefs` list. -/
structure ExternalRef where
  referenceLocator : Option String := none
deriving DecidableEq

/-- An SPDX package annotation as the enhancer appends it. -/
structure SecurityAnn where
  annotationType : String
  annotator : String
  comment : String
deriving DecidableEq

/-- An SPDX package entry (only the keys the enhancer reads or writes). -/
structure SpdxPackage where
  externalRefs : Option (List ExternalRef) := none
  annotations : Option (List SecurityAnn) := none
deriving DecidableEq

/-- A parsed SPDX document. -/
structure SpdxDoc where
  packages : Option (List SpdxPackage) := none
deriving DecidableEq

/-- `package.get('externalRefs', [\x7b\x7d])[0].get('referenceLocator', '')`:
an absent key defaults to a one-element list of an empty ref (locator `""`),
a present but empty list raises `IndexError` (`none` here), else the first
ref's locator with default `""`. -/
def spdxPackagePurl (package : SpdxPackage) : Option String :=
  match package.externalRefs with
  | none => some ""
  | some [] => none
  | some (r :: _) => some (r.referenceLocator.getD "")

/-- The SECURITY annotation the SPDX enhancer appends for one vulnerability. -/
def securityAnnForVuln (vuln : Vuln) : SecurityAnn :=
  { annotationType := "SECURITY",
    annotator := "Tool: ScanCode.io",
    comment := "Vulnerability ID: " ++ vuln.vulnerability_id.getD "" ++ ", Severity: " ++ vuln.severity.getD "" }

/-- The vulnerabilities whose `package.purl` equals the package's derived
purl (empty when deriving the purl raises). -/
def spdxMatchedVulns (vulnerabilities : List Vuln) (package : SpdxPackage) : List Vuln :=
  match spdxPackagePurl package with
  | none => []
  | some purl => vulnerabilities.filter (fun v => v.package_purl.getD "" == purl)

/-- Loop body of `enhance_spdx_sbom` for one package: derive the purl
(`Except.error` models the uncaught-at-this-level `IndexError`), then if any
vulnerability matches, ensure `annotations` exists and append one SECURITY
annotation per match. -/
def enhance_spdx_package (vulnerabilities : List Vuln) (package : SpdxPackage) :
    Except Unit SpdxPackage :=
  match spdxPackagePurl package with
  | none => Except.error ()
  | some purl =>
    let package_vulns := vulnerabilities.filter (fun v => v.package_purl.getD "" == purl)
    if package_vulns.isEmpty then Except.ok package
    else
      Except.ok { package with
        annotations := some ((package.annotations.getD []) ++ package_vulns.map securityAnnForVuln) }

/-- The successful-case result of `enhance_spdx_package`: append one
SECURITY annotation per matched vulnerability, creating `annotations` when
needed, else leave the package alone. -/
def spdxAddAnns (vulnerabilities : List Vuln) (package : SpdxPackage) : SpdxPackage :=
  if (spdxMatchedVulns vulnerabilities package).isEmpty then package
  else { package with
    annotations := some ((package.annotations.getD []) ++
      (spdxMatchedVulns vulnerabilities package).map securityAnnForVuln) }

/-- The package loop of `enhance_spdx_sbom`: processes packages in order;
the first raising package aborts the whole body (the exception propagates
to the enclosing `try`). -/
def enhance_spdx_packages (vulnerabilities : List Vuln) :
    List SpdxPackage → Except Unit (List SpdxPackage)
  | [] => Except.ok []
  | p :: ps =>
    match enhance_spdx_package vulnerabilities p with
    | Except.error e => Except.error e
    | Except.ok q =>
      match enhance_spdx_packages vulnerabilities ps with
      | Except.error e => Except.error e
      | Except.ok qs => Except.ok (q :: qs)

/-- The body of `enhance_spdx_sbom`'s `try`: the enhanced document, or an
error when some package raised. -/
def enhance_spdx_doc (spdx_data : SpdxDoc) (vulnerabilities : List Vuln) :
    Except Unit SpdxDoc :=
  match spdx_data.packages with
  | none => Except.ok spdx_data
  | some pkgs =>
    match enhance_spdx_packages vulnerabilities pkgs with
    | Except.error e => Except.error e
    | Except.ok pkgs2 => Except.ok { spdx_data with packages := some pkgs2 }

/-- `enhance_spdx_sbom(spdx_path, vulnerabilities)` seen as a transform of
the file's content: on success the enhanced document is written back; any
exception is caught and logged, so the file keeps its old content. -/
def enhance_spdx_sbom (spdx_data : SpdxDoc) (vulnerabilities : List Vuln) : SpdxDoc :=
  match enhance_spdx_doc spdx_data vulnerabilities with
  | Except.ok d => d
  | Except.error _ => spdx_data

/-- Total number of annotations across an SPDX document's packages. -/
def totalAnnotations (spdx_data : SpdxDoc) : Nat :=
  ((spdx_data.packages.getD []).map (fun p => (p.annotations.getD []).length)).sum

/-- A CycloneDX component (only the key the enhancer reads). -/
structure CdxComponent where
  purl : Option String := none
deriving DecidableEq

/-- One rating of a CycloneDX vulnerability entry. -/
structure CdxRating where
  severity : String
  method : String
deriving DecidableEq

/-- One entry the enhancer appends to the document's top-level
`vulnerabilities` array. -/
structure CdxVulnEntry where
  id : String
  ratings : List CdxRating
  affects : List String
deriving DecidableEq

/-- A parsed CycloneDX JSON document. -/
structure CdxDoc where
  components : Option (List CdxComponent) := none
  vulnerabilities : Option (List CdxVulnEntry) := none
deriving DecidableEq

/-- The vulnerability entry appended for a vulnerability affecting `purl`. -/
def cdxEntryForVuln (purl : String) (vuln : Vuln) : CdxVulnEntry :=
  { id := vuln.vulnerability_id.getD "",
    ratings := [{ severity := String.mk ((vuln.severity.getD "").data.map Char.toUpper),
                  method := "VulnerableCode" }],
    affects := [purl] }

/-- The JSON branch of `enhance_cyclonedx_sbom`: for each component with a
matching vulnerability, create the top-level `vulnerabilities` list if
absent and append one entry per match. -/
def enhance_cdx_doc (cyclonedx_data : CdxDoc) (vulnerabilities : List Vuln) : CdxDoc :=
  match cyclonedx_data.components with
  | none => cyclonedx_data
  | some comps =>
    let vlist := comps.foldl
      (fun acc component =>
        let purl := component.purl.getD ""
        let component_vulns := vulnerabilities.filter (fun v => v.package_purl.getD "" == purl)
        if component_vulns.isEmpty then acc
        else some ((acc.getD []) ++ component_vulns.map (cdxEntryForVuln purl)))
      cyclonedx_data.vulnerabilities
    { cyclonedx_data with vulnerabilities := vlist }

/-- What a file in the output directory holds: a parsable SPDX JSON
document, a parsable CycloneDX JSON document, or anything else (XML,
malformed JSON, ...), on which the enhancers' `json.load` raises and the
caught exception leaves the file unchanged. -/
inductive FileContent where
  | spdxDoc : SpdxDoc → FileContent
  | cdxDoc : CdxDoc → FileContent
  | other : FileContent
deriving DecidableEq

/-- A directory entry: file name and content. -/
structure DirEntry where
  name : String
  content : FileContent
deriving DecidableEq

/-- The SBOM-discovery loop of `enhance_sbom`: the last `*.spdx.json` /
`*.spdx` name and the last `*.cdx.json` / `*.cdx.xml` name. -/
def findSbomPaths (dir : List DirEntry) : Option String × Option String :=
  dir.foldl
    (fun acc e =>
      if pyEndsWith e.name ".spdx.json" ∨ pyEndsWith e.name ".spdx" then (some e.name, acc.2)
      else if pyEndsWith e.name ".cdx.json" ∨ pyEndsWith e.name ".cdx.xml" then (acc.1, some e.name)
      else acc)
    (none, none)

/-- Effect of `enhance_spdx_sbom(path, vulns)` on the directory: the named
file is rewritten through the document transform when it holds SPDX JSON;
a `json.load` failure is caught and changes nothing. -/
def applySpdxEnhance (vulnerabilities : List Vuln) (path : String)
    (dir : List DirEntry) : List DirEntry :=
  dir.map (fun e =>
    if e.name == path then
      match e.content with
      | FileContent.spdxDoc d =>
        { e with content := FileContent.spdxDoc (enhance_spdx_sbom d vulnerabilities) }
      | _ => e
    else e)

/-- Effect of `enhance_cyclonedx_sbom(path, vulns)` on the directory: only
a `.json`-named file holding CycloneDX JSON is rewritten; the XML branch
and caught parse failures change nothing. -/
def applyCdxEnhance (vulnerabilities : List Vuln) (path : String)
    (dir : List DirEntry) : List DirEntry :=
  dir.map (fun e =>
    if e.name == path then
      if pyEndsWith e.name ".json" then
        match e.content with
        | FileContent.cdxDoc d =>
          { e with content := FileContent.cdxDoc (enhance_cdx_doc d vulnerabilities) }
        | _ => e
      else e
    else e)

/-- `enhance_sbom(scan_results, output_dir, sbom_format)` as a transform of
the output directory's contents. -/
def enhance_sbom (scan_results : ScanResults) (dir : List DirEntry)
    (sbom_format : String) : List DirEntry :=
  if pyLower sbom_format = "false" then dir
  else
    let vulnerabilities := extract_vulnerabilities scan_results
    let paths := findSbomPaths dir
    let formats_to_enhance : List String :=
      if pyLower sbom_format = "both" then ["spdx", "cyclonedx"]
      else if pyLower sbom_format = "spdx" ∨ pyLower sbom_format = "cyclonedx" then
        [pyLower sbom_format]
      else []
    formats_to_enhance.foldl
      (fun d fmt =>
        if fmt = "spdx" then
          match paths.1 with
          | some p => applySpdxEnhance vulnerabilities p d
          | none => d
        else if fmt = "cyclonedx" then
          match paths.2 with
          | some p => applyCdxEnhance vulnerabilities p d
          | none => d
        else d)
      dir

/-- The `results-*.json` filter of `main` over the input directory listing. -/
def resultsFileNames (listing : List String) : List String :=
  listing.filter (fun f => pyStartsWith f "results-" && pyEndsWith f ".json")

/-- The exit code `main` ends with, as a function of the input directory
listing, an abstract loader for the selected results file (`none` models
`load_scan_results` exiting 1), the policy path with its file system, and
the `--fail-on-findings` flag. -/
def main_exit (listing : List String) (loadScan : String → Option ScanResults)
    (fs : String → FileState) (policy_path : Option String)
    (fail_on_findings : String) : Nat :=
  let results_files := resultsFileNames listing
  if results_files.isEmpty then 1
  else
    let results_file := (pySorted results_files).getLastD ""
    match loadScan results_file with
    | none => 1
    | some scan_results =>
      let policy := load_policy fs policy_path
      let resources := extract_resources scan_results
      let vulnerabilities := extract_vulnerabilities scan_results
      let license_check_passed := (check_license_policy resources policy).1
      let vuln_check_passed := (check_vulnerability_policy vulnerabilities policy).1
      let policy_passed := license_check_passed && vuln_check_passed
      if pyLower fail_on_findings = "true" ∧ policy_passed = false then 1 else 0

/-! ## Theorems -/

/-- C3: a policy path that is absent, names a non-existent file or names an
unparseable file makes `load_policy` return `None`, and on a `None` policy
both check functions return `(True, [])`. -/
theorem load_policy_failure_checks_pass (fs : String → FileState) (path : Option String)
    (resources : Resources) (vulnerabilities : List Vuln)
    (h : path = none ∨ ∃ p, path = some p ∧
          (fs p = FileState.absent ∨ fs p = FileState.unparseable)) :
    load_policy fs path = none
    ∧ check_license_policy resources (load_policy fs path) = (true, [])
    ∧ check_vulnerability_policy vulnerabilities (load_policy fs path) = (true, []) := by
  have hnone : load_policy fs path = none := by
    rcases h with h | ⟨p, hp, hfs⟩
    · rw [h]; rfl
    · subst hp
      by_cases hp0 : p = ""
      · simp [load_policy, hp0]
      · rcases hfs with hfs | hfs <;> simp [load_policy, hp0, hfs]
  refine ⟨hnone, ?_, ?_⟩ <;> rw [hnone] <;> rfl

theorem load_policy_failure_checks_pass_witness :
    load_policy (fun _ => FileState.absent) (some "policy.yml") = none
    ∧ check_license_policy {} (load_policy (fun _ => FileState.absent) (some "policy.yml"))
        = (true, [])
    ∧ check_vulnerability_policy [] (load_policy (fun _ => FileState.absent) (some "policy.yml"))
        = (true, []) :=
  load_policy_failure_checks_pass _ _ _ _ (Or.inr ⟨"policy.yml", rfl, Or.inl rfl⟩)

/-- C4: for both check functions, the returned pass flag is `True` exactly
when the returned violation list is empty. -/
theorem check_passed_iff_no_violations (resources : Resources)
    (vulnerabilities : List Vuln) (policy : Option Policy) :
    ((check_license_policy resources policy).1 = true
      ↔ (check_license_policy resources policy).2 = [])
    ∧ ((check_vulnerability_policy vulnerabilities policy).1 = true
      ↔ (check_vulnerability_policy vulnerabilities policy).2 = []) := by
  constructor
  · cases policy with
    | none => simp [check_license_policy]
    | some p =>
      cases hl : p.license with
      | none => simp [check_license_policy, hl]
      | some lp =>
        simp only [check_license_policy, hl]
        rw [beq_iff_eq, List.length_eq_zero]
  · cases policy with
    | none => simp [check_vulnerability_policy]
    | some p =>
      cases hv : p.vulnerabilities with
      | none => simp [check_vulnerability_policy, hv]
      | some vp =>
        simp only [check_vulnerability_policy, hv]
        rw [beq_iff_eq, List.length_eq_zero]

/-- C9: when the `vulnerabilities` policy section has no
`fail_on_unpatchable` key, it defaults to false and no
`unpatchable_vulnerability` violation is emitted for any vulnerability. -/
theorem no_unpatchable_violation_when_key_absent (vulnerabilities : List Vuln)
    (lic : Option LicensePolicy) (vp : VulnPolicy)
    (h : vp.fail_on_unpatchable = none) :
    ((check_vulnerability_policy vulnerabilities
        (some { license := lic, vulnerabilities := some vp })).2.all
      (fun viol => viol.type != "unpatchable_vulnerability")) = true := by
  simp only [check_vulnerability_policy, h]
  rw [List.all_eq_true]
  intro viol hviol
  rw [List.mem_flatMap] at hviol
  obtain ⟨v, _, hmem⟩ := hviol
  simp only [vulnViolations, Option.getD] at hmem
  rw [List.mem_append] at hmem
  rcases hmem with hmem | hmem
  · split at hmem
    · rw [List.mem_singleton] at hmem
      subst hmem
      simp [highSevViolation]
    · exact absurd hmem (List.not_mem_nil _)
  · split at hmem
    · rename_i hcond
      exact absurd hcond.1 Bool.false_ne_true
    · exact absurd hmem (List.not_mem_nil _)

theorem no_unpatchable_violation_when_key_absent_witness :
    ({ maximum_severity := some "critical", fail_on_unpatchable := none } :
        VulnPolicy).fail_on_unpatchable = none
    ∧ ((check_vulnerability_policy [{ severity := some "low", is_patchable := some false }]
          (some { license := none,
                  vulnerabilities :=
                    some { maximum_severity := some "critical", fail_on_unpatchable := none } })).2.all
        (fun viol => viol.type != "unpatchable_vulnerability")) = true :=
  ⟨rfl, no_unpatchable_violation_when_key_absent _ none _ rfl⟩

/-- C8: a format string whose lowercase form is none of `spdx`,
`cyclonedx`, `both` (for instance `"false"`) makes `enhance_sbom` leave
every file of the output directory unchanged. -/
theorem enhance_sbom_unknown_format_noop (scan_results : ScanResults)
    (dir : List DirEntry) (sbom_format : String)
    (h : pyLower sbom_format ∉ ["spdx", "cyclonedx", "both"]) :
    enhance_sbom scan_results dir sbom_format = dir := by
  simp only [List.mem_cons, List.not_mem_nil, or_false, not_or] at h
  obtain ⟨h1, h2, h3⟩ := h
  unfold enhance_sbom
  by_cases hf : pyLower sbom_format = "false"
  · rw [if_pos hf]
  · rw [if_neg hf]
    simp only [if_neg h3, if_neg (not_or.mpr ⟨h1, h2⟩)]
    rfl

theorem enhance_sbom_unknown_format_noop_witness :
    pyLower "FALSE" ∉ ["spdx", "cyclonedx", "both"]
    ∧ enhance_sbom {} [⟨"a.spdx.json", FileContent.spdxDoc {}⟩] "FALSE"
        = [⟨"a.spdx.json", FileContent.spdxDoc {}⟩] :=
  ⟨by decide, enhance_sbom_unknown_format_noop _ _ _ (by decide)⟩

theorem enhance_spdx_package_raises (vulnerabilities : List Vuln) (p : SpdxPackage)
    (he : p.externalRefs = some []) :
    enhance_spdx_package vulnerabilities p = Except.error () := by
  unfold enhance_spdx_package spdxPackagePurl
  rw [he]

theorem enhance_spdx_packages_raise (vulnerabilities : List Vuln)
    (l : List SpdxPackage) (p : SpdxPackage) (hp : p ∈ l)
    (he : p.externalRefs = some []) :
    enhance_spdx_packages vulnerabilities l = Except.error () := by
  induction l with
  | nil => exact absurd hp (List.not_mem_nil _)
  | cons q qs ih =>
    simp only [enhance_spdx_packages]
    rcases List.mem_cons.mp hp with rfl | hp2
    · rw [enhance_spdx_package_raises vulnerabilities p he]
    · cases hq : enhance_spdx_package vulnerabilities q with
      | error e => cases e; rfl
      | ok q2 => rw [ih hp2]

/-- C10: when some package's `externalRefs` is present but empty, deriving
its purl raises, the exception is caught by the enclosing handler and the
SPDX file keeps its previous content, annotations computed for earlier
packages included. -/
theorem enhance_spdx_sbom_error_atomic (spdx_data : SpdxDoc)
    (vulnerabilities : List Vuln) (p : SpdxPackage)
    (hp : p ∈ spdx_data.packages.getD []) (he : p.externalRefs = some []) :
    enhance_spdx_sbom spdx_data vulnerabilities = spdx_data := by
  cases hpk : spdx_data.packages with
  | none =>
    rw [hpk] at hp
    exact absurd hp (List.not_mem_nil _)
  | some pkgs =>
    have hp2 : p ∈ pkgs := by rw [hpk] at hp; simpa using hp
    simp only [enhance_spdx_sbom, enhance_spdx_doc, hpk,
      enhance_spdx_packages_raise vulnerabilities pkgs p hp2 he]

theorem enhance_spdx_sbom_error_atomic_witness :
    (({ externalRefs := some [] } : SpdxPackage)
        ∈ (({ packages := some [
                { externalRefs := some [{ referenceLocator := some "pkg:pypi/x" }] },
                { externalRefs := some [] }] } : SpdxDoc)).packages.getD []
      ∧ ({ externalRefs := some [] } : SpdxPackage).externalRefs = some [])
    ∧ enhance_spdx_sbom
        { packages := some [
            { externalRefs := some [{ referenceLocator := some "pkg:pypi/x" }] },
            { externalRefs := some [] }] }
        [{ package_purl := some "pkg:pypi/x" }]
      = { packages := some [
            { externalRefs := some [{ referenceLocator := some "pkg:pypi/x" }] },
            { externalRefs := some [] }] } :=
  ⟨⟨by decide, rfl⟩,
    enhance_spdx_sbom_error_atomic _ _ { externalRefs := some [] } (by decide) rfl⟩

/-- C2, counterexample: a vulnerability whose severity is the unrecognized
string `"BOGUS"` is tallied under the bucket `"bogus"`, a key that is
neither a recognized severity nor `"unknown"`. -/
theorem summary_unrecognized_severity_own_bucket :
    (generate_summary {} [{ severity := some "BOGUS" }] [] []).vulnerabilities_by_severity
      = [("bogus", 1)]
    ∧ "bogus" ∉ ["none", "low", "medium", "high", "critical", "unknown"] := by
  decide

theorem bumpSeverity_keys (acc : List (String × Nat)) (k0 k : String) :
    k ∈ (bumpSeverity acc k0).map Prod.fst ↔ k ∈ acc.map Prod.fst ∨ k = k0 := by
  unfold bumpSeverity
  by_cases h : acc.any (fun p => p.1 == k0)
  · rw [if_pos h]
    have hfst : (acc.map (fun p => if p.1 == k0 then (p.1, p.2 + 1) else p)).map Prod.fst
        = acc.map Prod.fst := by
      rw [List.map_map]
      apply List.map_congr_left
      intro p _
      by_cases hp : p.1 = k0 <;> simp [hp]
    rw [hfst]
    constructor
    · exact Or.inl
    · rintro (h1 | rfl)
      · exact h1
      · rw [List.any_eq_true] at h
        obtain ⟨p, hp, hpk⟩ := h
        rw [beq_iff_eq] at hpk
        exact List.mem_map.mpr ⟨p, hp, hpk⟩
  · rw [if_neg h, List.map_append]
    simp [List.mem_append]

theorem foldl_bumpSeverity_keys {α : Type} (g : α → String) (l : List α)
    (acc : List (String × Nat)) (k : String) :
    k ∈ (l.foldl (fun acc x => bumpSeverity acc (g x)) acc).map Prod.fst
      ↔ k ∈ acc.map Prod.fst ∨ k ∈ l.map g := by
  induction l generalizing acc with
  | nil => simp
  | cons a l ih =>
    simp only [List.foldl_cons, List.map_cons, List.mem_cons]
    rw [ih, bumpSeverity_keys]
    tauto

/-- C2, amended: `generate_summary` buckets each vulnerability under the
case-lowered value of its severity string, with the literal `"unknown"`
used only when the severity key is missing; the bucket keys are exactly
the values of that map over the vulnerability list, which for an
unrecognized severity string is its own lowered form, not `"unknown"`. -/
theorem summary_by_severity_keys (resources : Resources)
    (vulnerabilities : List Vuln) (license_violations vuln_violations : List Violation)
    (k : String) :
    (k ∈ ((generate_summary resources vulnerabilities license_violations
            vuln_violations).vulnerabilities_by_severity).map Prod.fst)
      ↔ k ∈ vulnerabilities.map (fun vuln => pyLower (vuln.severity.getD "unknown")) := by
  have hfield : (generate_summary resources vulnerabilities license_violations
        vuln_violations).vulnerabilities_by_severity
      = vulnerabilities.foldl
          (fun acc vuln => bumpSeverity acc (pyLower (vuln.severity.getD "unknown"))) [] := rfl
  rw [hfield, foldl_bumpSeverity_keys (fun vuln : Vuln => pyLower (vuln.severity.getD "unknown"))]
  simp

/-- C5, counterexample: a file whose `detected_license_expression` is the
empty string, with `""` in the prohibited list, is skipped by the falsiness
guard and produces no `prohibited_license` violation at all. -/
theorem prohibited_empty_expression_skipped :
    ("" ∈ (({ prohibited := some [""] } : LicensePolicy).prohibited.getD []))
    ∧ (check_license_policy { files := [{ detected_license_expression := some "" }] }
          (some { license := some { prohibited := some [""] } })).2.countP
        (fun viol => viol.type == "prohibited_license") = 0 := by
  decide

/-- C5, amended: a file record whose `detected_license_expression` is
non-empty and a member of the prohibited list yields exactly one
`prohibited_license` violation among the violations generated from that
file, whatever its clarity scores and other violation types; and
`check_license_policy` is the concatenation of the per-file violations. -/
theorem prohibited_license_exactly_one (resources : Resources)
    (lp : LicensePolicy) (vp : Option VulnPolicy) (r : FileRecord) (s : String)
    (hdle : r.detected_license_expression = some s) (hne : s ≠ "")
    (hmem : s ∈ lp.prohibited.getD []) :
    (fileLicenseViolations lp r).countP (fun viol => viol.type == "prohibited_license") = 1
    ∧ (check_license_policy resources (some { license := some lp, vulnerabilities := vp })).2
        = resources.files.flatMap (fileLicenseViolations lp) := by
  refine ⟨?_, rfl⟩
  simp only [fileLicenseViolations, hdle]
  rw [if_neg hne]
  rw [List.countP_append, List.countP_append]
  have h1 : List.countP (fun viol : Violation => viol.type == "prohibited_license")
      (if s ∈ lp.prohibited.getD [] then
        [({ type := "prohibited_license", license := some s,
            file_path := some (r.path.getD ""),
            message := "Prohibited license '" ++ s ++ "' found in " ++ r.path.getD "" } : Violation)]
       else []) = 1 := by
    rw [if_pos hmem]
    rfl
  have h2 : List.countP (fun viol : Violation => viol.type == "prohibited_license")
      (if lp.allowed.getD [] ≠ [] ∧ s ∉ lp.allowed.getD [] then
        [({ type := "disallowed_license", license := some s,
            file_path := some (r.path.getD ""),
            message := "License '" ++ s ++ "' not in allowed list found in " ++ r.path.getD "" } : Violation)]
       else []) = 0 := by
    split
    · rfl
    · rfl
  have h3 : List.countP (fun viol : Violation => viol.type == "prohibited_license")
      ((r.license_detections.getD []).flatMap (fun detection =>
        (detection.matchList.getD []).flatMap (fun m =>
          if m.score.getD 0 < lp.minimum_clarity_score.getD 0 then
            [({ type := "low_clarity_score", license := some s,
                score := some (m.score.getD 0), file_path := some (r.path.getD ""),
                message := "License '" ++ s ++ "' has clarity score " ++ toString (m.score.getD 0) ++ ", which is below minimum " ++ toString (lp.minimum_clarity_score.getD 0) } : Violation)]
          else []))) = 0 := by
    rw [List.countP_eq_zero]
    intro a ha
    rw [List.mem_flatMap] at ha
    obtain ⟨d, _, ha⟩ := ha
    rw [List.mem_flatMap] at ha
    obtain ⟨m, _, ha⟩ := ha
    split at ha
    · rw [List.mem_singleton] at ha
      subst ha
      simp
    · exact absurd ha (List.not_mem_nil _)
  rw [h1, h2, h3]

theorem prohibited_license_exactly_one_witness :
    (fileLicenseViolations
        { prohibited := some ["gpl-3.0"], minimum_clarity_score := some 50 }
        { path := some "a.py", detected_license_expression := some "gpl-3.0",
          license_detections := some [{ matchList := some [{ score := some 10 }] }] }).countP
      (fun viol => viol.type == "prohibited_license") = 1
    ∧ (check_license_policy
          { files := [{ path := some "a.py", detected_license_expression := some "gpl-3.0",
                        license_detections := some [{ matchList := some [{ score := some 10 }] }] }] }
          (some { license := some { prohibited := some ["gpl-3.0"],
                                    minimum_clarity_score := some 50 },
                  vulnerabilities := none })).2
        = ({ files := [{ path := some "a.py", detected_license_expression := some "gpl-3.0",
                         license_detections := some [{ matchList := some [{ score := some 10 }] }] }] } :
            Resources).files.flatMap
            (fileLicenseViolations
              { prohibited := some ["gpl-3.0"], minimum_clarity_score := some 50 }) :=
  prohibited_license_exactly_one _ _ none _ "gpl-3.0" rfl (by decide) (by decide)

/-- C1: for a vulnerability in the checked list and a policy with a
`vulnerabilities` section, its `high_severity_vulnerability` violation is
among the returned violations exactly when the severity level of its
severity string exceeds the level of the configured maximum, with the
levels of the spec's table (`none`..`critical` = 0..4, case-insensitive,
unrecognized or missing severity reading 0, unrecognized ceiling 4). -/
theorem high_severity_violation_iff (vulnerabilities : List Vuln)
    (lic : Option LicensePolicy) (vp : VulnPolicy) (v : Vuln)
    (h : v ∈ vulnerabilities) :
    highSevViolation (pyLower (vp.maximum_severity.getD "critical")) v
        ∈ (check_vulnerability_policy vulnerabilities
            (some { license := lic, vulnerabilities := some vp })).2
      ↔ severityLevel (v.severity.getD "")
          > ceilingLevel (vp.maximum_severity.getD "critical") := by
  simp only [check_vulnerability_policy]
  unfold severityLevel ceilingLevel
  constructor
  · intro hmem
    rw [List.mem_flatMap] at hmem
    obtain ⟨v2, _, hin⟩ := hmem
    simp only [vulnViolations] at hin
    rw [List.mem_append] at hin
    rcases hin with hin | hin
    · split at hin
      · rename_i hc
        rw [List.mem_singleton] at hin
        have hsev : pyLower (v.severity.getD "") = pyLower (v2.severity.getD "") := by
          have := congrArg Violation.severity hin
          simpa [highSevViolation] using this
        rw [hsev]
        exact hc
      · exact absurd hin (List.not_mem_nil _)
    · split at hin
      · rw [List.mem_singleton] at hin
        have := congrArg Violation.type hin
        simp [highSevViolation, unpatchableViolation] at this
      · exact absurd hin (List.not_mem_nil _)
  · intro hgt
    rw [List.mem_flatMap]
    refine ⟨v, h, ?_⟩
    simp only [vulnViolations]
    rw [List.mem_append]
    left
    rw [if_pos hgt]
    exact List.mem_singleton.mpr rfl

theorem high_severity_violation_iff_witness :
    (highSevViolation
        (pyLower ((({ maximum_severity := some "high" } : VulnPolicy)).maximum_severity.getD "critical"))
        ({ severity := some "critical" } : Vuln)
      ∈ (check_vulnerability_policy [({ severity := some "critical" } : Vuln)]
          (some { license := none,
                  vulnerabilities := some { maximum_severity := some "high" } })).2)
    ↔ severityLevel (({ severity := some "critical" } : Vuln).severity.getD "")
        > ceilingLevel ((({ maximum_severity := some "high" } : VulnPolicy)).maximum_severity.getD "critical") :=
  high_severity_violation_iff _ none _ _ (List.mem_singleton.mpr rfl)

/-- C7, counterexample to the unrestricted claim: with a matched package
followed by a package whose `externalRefs` is an empty list, every
enhancement run raises and is caught, so running twice adds nothing. -/
theorem spdx_double_enhancement_not_strict :
    ([({ package_purl := some "pkg:pypi/x" } : Vuln)] ≠ []
      ∧ ∃ p ∈ (({ packages := some [
            { externalRefs := some [{ referenceLocator := some "pkg:pypi/x" }] },
            { externalRefs := some [] }] } : SpdxDoc)).packages.getD [],
          spdxMatchedVulns [{ package_purl := some "pkg:pypi/x" }] p ≠ [])
    ∧ totalAnnotations
        (enhance_spdx_sbom
          (enhance_spdx_sbom
            { packages := some [
                { externalRefs := some [{ referenceLocator := some "pkg:pypi/x" }] },
                { externalRefs := some [] }] }
            [{ package_purl := some "pkg:pypi/x" }])
          [{ package_purl := some "pkg:pypi/x" }])
      = totalAnnotations
        (enhance_spdx_sbom
          { packages := some [
              { externalRefs := some [{ referenceLocator := some "pkg:pypi/x" }] },
              { externalRefs := some [] }] }
          [{ package_purl := some "pkg:pypi/x" }]) := by
  decide

theorem enhance_spdx_package_ok (vulnerabilities : List Vuln) (p : SpdxPackage)
    (h : p.externalRefs ≠ some []) :
    enhance_spdx_package vulnerabilities p = Except.ok (spdxAddAnns vulnerabilities p) := by
  obtain ⟨u, hu⟩ : ∃ u, spdxPackagePurl p = some u := by
    unfold spdxPackagePurl
    cases her : p.externalRefs with
    | none => exact ⟨"", rfl⟩
    | some l =>
      cases l with
      | nil => exact absurd her h
      | cons r rs => exact ⟨r.referenceLocator.getD "", rfl⟩
  simp only [enhance_spdx_package, spdxAddAnns, spdxMatchedVulns, hu]
  rw [apply_ite Except.ok]

theorem externalRefs_spdxAddAnns (vulnerabilities : List Vuln) (p : SpdxPackage) :
    (spdxAddAnns vulnerabilities p).externalRefs = p.externalRefs := by
  unfold spdxAddAnns
  split <;> rfl

theorem spdxPackagePurl_spdxAddAnns (vulnerabilities : List Vuln) (p : SpdxPackage) :
    spdxPackagePurl (spdxAddAnns vulnerabilities p) = spdxPackagePurl p := by
  unfold spdxPackagePurl
  rw [externalRefs_spdxAddAnns]

theorem spdxMatchedVulns_spdxAddAnns (vulnerabilities : List Vuln) (p : SpdxPackage) :
    spdxMatchedVulns vulnerabilities (spdxAddAnns vulnerabilities p)
      = spdxMatchedVulns vulnerabilities p := by
  unfold spdxMatchedVulns
  rw [spdxPackagePurl_spdxAddAnns]

theorem annLen_spdxAddAnns (vulnerabilities : List Vuln) (p : SpdxPackage) :
    ((spdxAddAnns vulnerabilities p).annotations.getD []).length
      = (p.annotations.getD []).length + (spdxMatchedVulns vulnerabilities p).length := by
  unfold spdxAddAnns
  by_cases hc : (spdxMatchedVulns vulnerabilities p).isEmpty
  · rw [if_pos hc]
    rw [List.isEmpty_iff] at hc
    rw [hc]
    rfl
  · rw [if_neg hc]
    simp [List.length_append]

theorem enhance_spdx_packages_ok (vulnerabilities : List Vuln) (l : List SpdxPackage)
    (h : ∀ p ∈ l, p.externalRefs ≠ some []) :
    enhance_spdx_packages vulnerabilities l
      = Except.ok (l.map (spdxAddAnns vulnerabilities)) := by
  induction l with
  | nil => rfl
  | cons p ps ih =>
    simp only [enhance_spdx_packages,
      enhance_spdx_package_ok vulnerabilities p (h p (List.mem_cons_self p ps)),
      ih (fun q hq => h q (List.mem_cons_of_mem p hq)), List.map_cons]

/-- C7, amended: provided no package's `externalRefs` is a present-but-empty
list (otherwise enhancement raises and is a caught no-op), enhancing twice
appends each matched package's SECURITY annotations a second time without
deduplication, so the doubly enhanced document has strictly more
annotations than the singly enhanced one whenever some package matches a
vulnerability. -/
theorem spdx_double_enhancement_adds (spdx_data : SpdxDoc) (vulnerabilities : List Vuln)
    (hok : ∀ p ∈ spdx_data.packages.getD [], p.externalRefs ≠ some [])
    (hmatch : ∃ p ∈ spdx_data.packages.getD [], spdxMatchedVulns vulnerabilities p ≠ []) :
    totalAnnotations (enhance_spdx_sbom (enhance_spdx_sbom spdx_data vulnerabilities) vulnerabilities)
      > totalAnnotations (enhance_spdx_sbom spdx_data vulnerabilities) := by
  obtain ⟨p0, hp0, hm0⟩ := hmatch
  cases hpk : spdx_data.packages with
  | none =>
    rw [hpk] at hp0
    exact absurd hp0 (List.not_mem_nil _)
  | some pkgs =>
    have hok1 : ∀ p ∈ pkgs, p.externalRefs ≠ some [] := by
      intro p hp
      exact hok p (by rw [hpk]; simpa using hp)
    have hp1 : p0 ∈ pkgs := by rw [hpk] at hp0; simpa using hp0
    have hdoc1 : enhance_spdx_sbom spdx_data vulnerabilities
        = { packages := some (pkgs.map (spdxAddAnns vulnerabilities)) } := by
      simp only [enhance_spdx_sbom, enhance_spdx_doc, hpk,
        enhance_spdx_packages_ok vulnerabilities pkgs hok1]
    have hok2 : ∀ p ∈ pkgs.map (spdxAddAnns vulnerabilities), p.externalRefs ≠ some [] := by
      intro q hq
      rw [List.mem_map] at hq
      obtain ⟨p, hp, rfl⟩ := hq
      rw [externalRefs_spdxAddAnns]
      exact hok1 p hp
    have hdoc2 : enhance_spdx_sbom
          ({ packages := some (pkgs.map (spdxAddAnns vulnerabilities)) } : SpdxDoc)
          vulnerabilities
        = { packages := some ((pkgs.map (spdxAddAnns vulnerabilities)).map
              (spdxAddAnns vulnerabilities)) } := by
      simp only [enhance_spdx_sbom, enhance_spdx_doc,
        enhance_spdx_packages_ok vulnerabilities _ hok2]
    rw [hdoc1, hdoc2]
    unfold totalAnnotations
    simp only [Option.getD_some, List.map_map]
    apply List.sum_lt_sum
    · intro p _
      simp only [Function.comp]
      rw [annLen_spdxAddAnns vulnerabilities (spdxAddAnns vulnerabilities p)]
      omega
    · refine ⟨p0, hp1, ?_⟩
      simp only [Function.comp]
      rw [annLen_spdxAddAnns vulnerabilities (spdxAddAnns vulnerabilities p0),
        spdxMatchedVulns_spdxAddAnns]
      have := List.length_pos.mpr hm0
      omega

theorem spdx_double_enhancement_adds_witness :
    totalAnnotations
      (enhance_spdx_sbom
        (enhance_spdx_sbom
          { packages := some [{ externalRefs := some [{ referenceLocator := some "pkg:pypi/x" }] }] }
          [{ package_purl := some "pkg:pypi/x" }])
        [{ package_purl := some "pkg:pypi/x" }])
    > totalAnnotations
      (enhance_spdx_sbom
        { packages := some [{ externalRefs := some [{ referenceLocator := some "pkg:pypi/x" }] }] }
        [{ package_purl := some "pkg:pypi/x" }]) :=
  spdx_double_enhancement_adds _ _ (by decide) (by decide)

/-- C6: the driver exits 0 exactly when a results file is found and loads
and either both policy checks pass or fail-on-findings is not enabled, and
exits 1 exactly when no results file is found, the selected one fails to
load, or fail-on-findings is enabled and some check failed. -/
theorem main_exit_codes (listing : List String) (loadScan : String → Option ScanResults)
    (fs : String → FileState) (policy_path : Option String) (fail_on_findings : String) :
    (main_exit listing loadScan fs policy_path fail_on_findings = 0
      ↔ (resultsFileNames listing ≠ []
         ∧ ∃ scan, loadScan ((pySorted (resultsFileNames listing)).getLastD "") = some scan
           ∧ (((check_license_policy (extract_resources scan) (load_policy fs policy_path)).1 = true
               ∧ (check_vulnerability_policy (extract_vulnerabilities scan)
                    (load_policy fs policy_path)).1 = true)
              ∨ pyLower fail_on_findings ≠ "true")))
    ∧ (main_exit listing loadScan fs policy_path fail_on_findings = 1
      ↔ (resultsFileNames listing = []
         ∨ loadScan ((pySorted (resultsFileNames listing)).getLastD "") = none
         ∨ (pyLower fail_on_findings = "true"
            ∧ ∃ scan, loadScan ((pySorted (resultsFileNames listing)).getLastD "") = some scan
              ∧ ¬((check_license_policy (extract_resources scan)
                     (load_policy fs policy_path)).1 = true
                  ∧ (check_vulnerability_policy (extract_vulnerabilities scan)
                       (load_policy fs policy_path)).1 = true)))) := by
  simp only [main_exit]
  by_cases hres : (resultsFileNames listing).isEmpty
  · rw [if_pos hres]
    rw [List.isEmpty_iff] at hres
    simp [hres]
  · rw [if_neg hres]
    have hres2 : resultsFileNames listing ≠ [] := by
      intro hnil
      rw [List.isEmpty_iff] at hres
      exact hres hnil
    cases hload : loadScan ((pySorted (resultsFileNames listing)).getLastD "") with
    | none => simp [hres2]
    | some scan =>
      by_cases hflag : pyLower fail_on_findings = "true" <;>
        cases hL : (check_license_policy (extract_resources scan) (load_policy fs policy_path)).1 <;>
        cases hV : (check_vulnerability_policy (extract_vulnerabilities scan)
          (load_policy fs policy_path)).1 <;>
        simp [hflag, hL, hV, hres2]

end ScancodeAction
